import Mathlib

/-!
Verification of the adjoint-matching flow module
(models/flow_module_adjointmatching.py).

Tensors with the shapes documented in the source are embedded as functions
out of Fin index types with exact rational entries; the parts of the reward
function and of the noise schedule that involve square roots are embedded
over the real numbers.  Automatic differentiation (torch.autograd.grad) is a
primitive of the ambient framework, so the adjoint solver receives, next to
the drift callable, the function gradSum that the autograd call of lines
77-80 returns, namely the gradient of (drift(x, t) * mask).sum() with
respect to x; concrete instantiations in the theorems supply the
mathematically correct gradient of the concrete drift at hand.
-/

namespace FlowAM

/-- Translation-state tensors of shape (batch, residues, 3), the shape of
x_t, the costate and the drift values documented in solve_adjoint_state. -/
abbrev T (B R : ℕ) := Fin B → Fin R → Fin 3 → ℚ

/-- Mask tensors of shape (batch, residues). -/
abbrev M (B R : ℕ) := Fin B → Fin R → ℚ

variable {B R : ℕ}

/-- Line 62: timesteps = torch.linspace(1.0, 0.0, 20), the fixed 20-point
uniform grid from 1.0 down to 0.0. -/
def timesteps : List ℚ := (List.range 20).map (fun i : ℕ => 1 - (i : ℚ) / 19)

/-- Line 63: dt = timesteps[1] - timesteps[0]. -/
def dt : ℚ := timesteps.getD 1 0 - timesteps.getD 0 0

theorem dt_eq : dt = -(1 / 19) := by
  simp [dt, timesteps, List.getD, List.getElem?_range]

/-- Line 83's torch.einsum with subscripts i, j and m, whose first operand is
the output of torch.autograd.grad(curr_drift.sum(), curr_x) from lines 77-80.
The gradient of the scalar curr_drift.sum() has the shape of curr_x, namely
(B, R, 3), so the three explicit subscripts of the first operand bind its
three axes (i to the batch axis, j to the residue axis, m to the coordinate
axis), while the single subscript j of the second operand binds the last
axis (size 3) of the costate.  torch requires the two sizes bound by j to
be equal or broadcastable (one of them 1).  Hence for R = 3 the contraction
runs over the matched axes; for R = 1 the size-1 residue axis of the
gradient is broadcast against the costate's size-3 coordinate axis and the
contraction runs over that axis (grad's j index frozen at 0); and for every
other residue count the einsum raises a size-mismatch error (none).  The
output has shape (B, R, B): out b r i = ∑ j, ∑ m, grad i j m * a b r j. -/
def einsum_ijm_j_i (grad : T B R) (a : T B R) : Option (Fin B → Fin R → Fin B → ℚ) :=
  if h : R = 3 then
    some (fun b r i => ∑ j : Fin R, ∑ m : Fin 3, grad i j m * a b r (Fin.cast h j))
  else if h1 : R = 1 then
    some (fun b r i => ∑ j : Fin 3, ∑ m : Fin 3, grad i (Fin.cast h1.symm 0) m * a b r j)
  else none

/-- The subtraction a_t - dt * (einsum output) on line 83: the einsum output
has shape (B, R, B), whose last axis must broadcast against the coordinate
axis (size 3) of a_t, which torch accepts only when B = 3 (axes equal) or
B = 1 (axis of size one stretched); the updated costate keeps shape
(B, R, 3). -/
def adjoint_update (a : T B R) (out : Fin B → Fin R → Fin B → ℚ) : Option (T B R) :=
  if h3 : B = 3 then
    some (fun b r k => a b r k - dt * out b r (Fin.cast h3.symm k))
  else if h1 : B = 1 then
    some (fun b r k => a b r k - dt * out b r (Fin.cast h1.symm 0))
  else none

/-- The loop body of lines 69-90, run once per remaining grid point t_curr
(the zipped t_next of line 69 is never read).  The running state is the pair
(a_t, curr_x).  curr_drift is drift(curr_x, t_curr) * mask (line 74), with
t_curr broadcast to one value per example; grad_b is the autograd result for
the masked drift sum (lines 77-80); the costate update is the einsum step of
line 83 followed by re-masking (line 84); the shadow forward state takes the
explicit Euler step curr_x + dt * curr_drift (lines 88-90), which carries no
gradient.  none models a runtime shape error raised inside the loop. -/
def adjoint_sweep (drift gradSum : T B R → (Fin B → ℚ) → T B R) (mask : M B R) :
    List ℚ → T B R × T B R → Option (T B R × T B R)
  | [], s => some s
  | tc :: rest, s =>
    let curr_drift : T B R := fun b r k => drift s.2 (fun _ => tc) b r k * mask b r
    let grad_b : T B R := gradSum s.2 (fun _ => tc)
    (einsum_ijm_j_i grad_b s.1).bind fun out =>
      (adjoint_update s.1 out).bind fun a1 =>
        adjoint_sweep drift gradSum mask rest
          (fun b r k => a1 b r k * mask b r,
           fun b r k => s.2 b r k + dt * curr_drift b r k)

/-- solve_adjoint_state (lines 48-92).  The terminal costate is
-ones * mask (lines 58-59); the backward sweep runs over timesteps[:-1]
(line 69); the input time t is consumed by the loop only through
t_curr.expand_as(t), that is, only for its shape, so it does not influence
the returned value; the result is the final element of the costate
trajectory (line 92).  none models a runtime shape error raised inside the
loop. -/
def solve_adjoint_state (drift gradSum : T B R → (Fin B → ℚ) → T B R)
    (x_t : T B R) (t : Fin B → ℚ) (mask : M B R) : Option (T B R) :=
  let a0 : T B R := fun b r _ => -1 * mask b r
  (adjoint_sweep drift gradSum mask timesteps.dropLast (a0, x_t)).map Prod.fst

/-- C1: the claim states that each backward step updates the costate by
a ← a - dt·(J_b·a) with J_b the per-residue 3×3 local Jacobian of the drift,
obtained from the differentiation of the summed drift output.  The code's
own comment on line 80 documents grad_b with shape (batch, residues, 3, 3),
but torch.autograd.grad of the scalar curr_drift.sum() returns the (B, R, 3)
gradient of that scalar, not a per-residue Jacobian, and the einsum of line
83 then binds its subscripts to the batch, residue and coordinate axes,
raising a size-mismatch error whenever the residue count differs from 3.
Evaluating the embedded solver on a batch of 2 examples with 5 residues and
a constant drift (whose masked sum has gradient zero) produces the error
(none) at the very first step instead of any costate update. -/
theorem adjoint_einsum_shape_mismatch :
    solve_adjoint_state (B := 2) (R := 5)
      (fun _ _ => fun _ _ _ => 1) (fun _ _ => fun _ _ _ => 0)
      (fun _ _ _ => 0) (fun _ => 1) (fun _ _ => 1) = none := rfl

theorem einsum_zero (hR : R = 3 ∨ R = 1) (a : T B R) :
    einsum_ijm_j_i (fun _ _ _ => 0) a = some (fun _ _ _ => 0) := by
  rcases hR with h | h
  · subst h
    unfold einsum_ijm_j_i
    rw [dif_pos rfl]
    refine congrArg some ?_
    funext b r i
    simp
  · subst h
    unfold einsum_ijm_j_i
    rw [dif_neg (by omega), dif_pos rfl]
    refine congrArg some ?_
    funext b r i
    simp

theorem adjoint_update_zero (hB : B = 3 ∨ B = 1) (a : T B R) :
    adjoint_update a (fun _ _ _ => 0) = some a := by
  rcases hB with h | h
  · subst h
    unfold adjoint_update
    rw [dif_pos rfl]
    refine congrArg some ?_
    funext b r k
    simp
  · subst h
    unfold adjoint_update
    rw [dif_neg (by omega), dif_pos rfl]
    refine congrArg some ?_
    funext b r k
    simp

theorem adjoint_sweep_zero_drift (hR : R = 3 ∨ R = 1) (hB : B = 3 ∨ B = 1)
    (mask : M B R) (hmask : ∀ b r, mask b r = 0 ∨ mask b r = 1) :
    ∀ (l : List ℚ) (x : T B R),
      adjoint_sweep (fun _ _ => fun _ _ _ => 0) (fun _ _ => fun _ _ _ => 0) mask l
        (fun b r _ => -1 * mask b r, x) = some (fun b r _ => -1 * mask b r, x) := by
  intro l
  induction l with
  | nil => intro x; rfl
  | cons tc rest ih =>
    intro x
    simp only [adjoint_sweep, einsum_zero hR, adjoint_update_zero hB, Option.some_bind,
      zero_mul, mul_zero, add_zero]
    have h1 : (fun (b : Fin B) (r : Fin R) (_ : Fin 3) => -1 * mask b r * mask b r)
        = fun (b : Fin B) (r : Fin R) (_ : Fin 3) => -1 * mask b r := by
      funext b r k
      rcases hmask b r with h | h <;> rw [h] <;> ring
    rw [h1]
    exact ih x

/-- C9 (amended): on the shapes the solver's contraction accepts — residue
count 3 (j-subscript sizes equal) or residue count 1 (the size-1 residue
axis of the gradient broadcasts), with a batch of 3 or of 1 examples — an
identically zero drift, whose masked sum has the identically zero gradient,
leaves the costate at the masked terminal value: the solver returns exactly
-1 * mask, that is, -1 on every valid residue and 0 on every masked-out
residue, with no drift over the backward sweep.  On every other residue
count the einsum of line 83 raises a size-mismatch error instead (see the
counterexample at 2 residues). -/
theorem solve_adjoint_zero_drift (hR : R = 3 ∨ R = 1) (hB : B = 3 ∨ B = 1)
    (x_t : T B R) (t : Fin B → ℚ) (mask : M B R)
    (hmask : ∀ b r, mask b r = 0 ∨ mask b r = 1) :
    solve_adjoint_state (fun _ _ => fun _ _ _ => 0) (fun _ _ => fun _ _ _ => 0)
      x_t t mask = some (fun b r _ => -1 * mask b r) := by
  simp only [solve_adjoint_state]
  rw [adjoint_sweep_zero_drift hR hB mask hmask]
  rfl

/-- Witness for solve_adjoint_zero_drift: a single example with three
residues, the middle residue masked out, at start time one half. -/
theorem solve_adjoint_zero_drift_witness :
    solve_adjoint_state (B := 1) (R := 3) (fun _ _ => fun _ _ _ => 0)
      (fun _ _ => fun _ _ _ => 0) (fun _ _ _ => 0) (fun _ => 1 / 2)
      (fun _ r => if r = 1 then 0 else 1)
      = some (fun _ r _ => -1 * if r = 1 then 0 else 1) :=
  solve_adjoint_zero_drift (Or.inl rfl) (Or.inr rfl) _ _ _
    (by intro b r; by_cases h : r = 1 <;> simp [h])

/-- C9 (counterexample): the claim quantifies over every initial state and
mask, but on a batch of one example with two residues and identically zero
drift the solver does not return the masked terminal value -1: the einsum of
line 83 raises a size-mismatch error (modelled as none) at the first step. -/
theorem solve_adjoint_zero_drift_shape_error :
    solve_adjoint_state (B := 1) (R := 2) (fun _ _ => fun _ _ _ => 0)
      (fun _ _ => fun _ _ _ => 0) (fun _ _ _ => 0) (fun _ => 1) (fun _ _ => 1)
      ≠ some (fun _ _ _ => -1 * 1) := by
  intro h
  exact Option.noConfusion h

/-- Atom tensors of shape (batch, residues, 3 backbone atoms, 3 coordinates):
the `[:, :, :3]` slice of a to_atom37 output, as on lines 153 and 217-220. -/
abbrev A37 (B R : ℕ) := Fin B → Fin R → Fin 3 → Fin 3 → ℚ

/-- Lines 184-185: the translation drift closure
drift_tr(x, t) = (pred_trans - x) / (1 - t) * reward, where pred_trans is
the model's predicted final translation of line 148 and reward is the
per-example scalar factor the closure captures. -/
def trans_drift (pred_trans : T B R) (reward : Fin B → ℚ) (x : T B R)
    (t : Fin B → ℚ) : T B R :=
  fun b r k => (pred_trans b r k - x b r k) / (1 - t b) * reward b

/-- Lines 190-191: trans_adjoint_term = trans_vf + sigma_t[..., None, None]
* trans_adjoint.  r3_t has shape (B, 1) — line 216 reads r3_t[0, 0], and
the solver's t_curr.expand_as(t) and the drift's t[..., None] rely on it —
so sigma_t of line 181 has shape (B, 1) and sigma_t[..., None, None] has
shape (B, 1, 1, 1).  Its product with the (B, R, 3) costate broadcasts to
a (B, B, R, 3) tensor, and adding the (B, R, 3) value of trans_vf gives
entry (i, j, r, k) = trans_vf j r k + sigma i * trans_adjoint j r k:
example i's sigma is paired with example j's drift and costate.  The
leading batch index i is the first argument, so that for fixed i the
remaining slice is an ordinary (B, R, 3) tensor. -/
def trans_adjoint_term (pred_trans : T B R) (reward : Fin B → ℚ) (trans_t : T B R)
    (r3_t sigma : Fin B → ℚ) (trans_adjoint : T B R) (i : Fin B) : T B R :=
  fun j r k => trans_drift pred_trans reward trans_t r3_t j r k
    + sigma i * trans_adjoint j r k

/-- The residue-r summand of the masked square sums of lines 193-196 and
209-212: the squared entries of a (B, R, 3) term tensor on residue r,
multiplied by the loss mask there and summed over the coordinate axis. -/
def loss_res_contrib (term : T B R) (mask : M B R) (b : Fin B) (r : Fin R) : ℚ :=
  ∑ k, (term b r k) ^ 2 * mask b r

/-- Lines 193-197: the translation loss: the configured weight
training_cfg.translation_loss_weight (here w) times the masked square sum of
the (B, B, R, 3) adjoint term over residues and coordinates, divided by the
mask sum, clamped to at most 5.  The mask loss_mask[..., None] (shape
(B, R, 1), padded to (1, B, R, 1)) and the normalizer (shape (B,), padded
to (1, B)) both follow the trailing batch axis j, so the result is a
(B, B) matrix — NOT one value per example: entry (i, j) pairs example i's
sigma with example j's drift, costate and mask. -/
def trans_loss (w : ℚ) (pred_trans : T B R) (reward : Fin B → ℚ) (trans_t : T B R)
    (r3_t sigma : Fin B → ℚ) (trans_adjoint : T B R) (mask : M B R) :
    Fin B → Fin B → ℚ :=
  fun i j => min (w * (∑ r, loss_res_contrib
      (trans_adjoint_term pred_trans reward trans_t r3_t sigma trans_adjoint i) mask j r)
    / (∑ r, mask j r)) 5

/-- The translation loss exactly as the claim words it: one value per
example b, built from example b's own drift, sigma and costate, with no
weight factor: squared norm of drift plus sigma times costate, summed over
residues and coordinates, masked, divided by the count of valid residues,
clamped to at most 5. -/
def trans_loss_claimed (pred_trans : T B R) (reward : Fin B → ℚ) (trans_t : T B R)
    (r3_t sigma : Fin B → ℚ) (trans_adjoint : T B R) (mask : M B R) : Fin B → ℚ :=
  fun b => min ((∑ r, loss_res_contrib
      (trans_adjoint_term pred_trans reward trans_t r3_t sigma trans_adjoint b) mask b r)
    / (∑ r, mask b r)) 5

/-- C2 (counterexample): with translation_loss_weight = 2, two examples and
one residue, predicted translation (1,0,0), zero noisy translation and
time, unit reward and mask, sigmas (0, 1) and costate (1,0,0): the code's
translation loss is a 2 x 2 matrix whose entry (0, 1) pairs example 0's
sigma with example 1's drift and costate and evaluates (with the weight) to
2, while the claimed per-example formula for example 1 gives 4.  The code's
translation loss is neither per-example nor free of the weight factor. -/
theorem trans_loss_matrix_counterexample :
    trans_loss (B := 2) (R := 1) 2 (fun _ _ k => if k = 0 then 1 else 0)
      (fun _ => 1) (fun _ _ _ => 0) (fun _ => 0)
      (fun b => if b = 0 then 0 else 1)
      (fun _ _ k => if k = 0 then 1 else 0) (fun _ _ => 1) 0 1
    ≠ trans_loss_claimed (B := 2) (R := 1) (fun _ _ k => if k = 0 then 1 else 0)
      (fun _ => 1) (fun _ _ _ => 0) (fun _ => 0)
      (fun b => if b = 0 then 0 else 1)
      (fun _ _ k => if k = 0 then 1 else 0) (fun _ _ => 1) 1 := by
  simp [trans_loss, trans_loss_claimed, loss_res_contrib, trans_adjoint_term,
    trans_drift, Fin.sum_univ_three]
  norm_num [min_def]

/-- The translation loss as the amended claim words it: entry (i, j) of the
B x B matrix is the mask-weighted sum over example j's residues of the
squared norm of (example j's drift at the current state and time) +
(example i's sigma) * (example j's costate), multiplied by the configured
translation loss weight, divided by example j's count of valid residues,
clamped to a maximum of 5. -/
def trans_loss_spec (w : ℚ) (pred_trans : T B R) (reward : Fin B → ℚ) (trans_t : T B R)
    (r3_t sigma : Fin B → ℚ) (trans_adjoint : T B R) (mask : M B R) :
    Fin B → Fin B → ℚ :=
  fun i j => min (w * (∑ r, mask j r * ∑ k,
      (trans_adjoint_term pred_trans reward trans_t r3_t sigma trans_adjoint i j r k) ^ 2)
    / (∑ r, mask j r)) 5

/-- C2 (amended): for every batch, lines 190-197 produce not one
translation loss per example but a B x B matrix, because
sigma_t[..., None, None] has shape (B, 1, 1, 1) and broadcasts against the
(B, R, 3) costate: entry (i, j) equals the squared norm of (drift_tr of
example j at the current noisy translation and translation time) +
(example i's sigma) * (example j's costate), summed over residues and
coordinates, masked with example j's mask, divided by example j's count of
valid residues, multiplied by the configured translation loss weight, and
clamped to a maximum of 5; the per-example reading of the claim (with the
weight factor) is recovered exactly on the diagonal i = j.  The drift
closure is drift_tr(x, t) = (pred_trans - x) / (1 - t) * reward. -/
theorem trans_loss_eq_spec (w : ℚ) (pred_trans : T B R) (reward : Fin B → ℚ)
    (trans_t : T B R) (r3_t sigma : Fin B → ℚ) (trans_adjoint : T B R) (mask : M B R) :
    trans_loss w pred_trans reward trans_t r3_t sigma trans_adjoint mask
      = trans_loss_spec w pred_trans reward trans_t r3_t sigma trans_adjoint mask := by
  funext i j
  have hs : (∑ r, loss_res_contrib
        (trans_adjoint_term pred_trans reward trans_t r3_t sigma trans_adjoint i) mask j r)
      = ∑ r, mask j r * ∑ k,
        (trans_adjoint_term pred_trans reward trans_t r3_t sigma trans_adjoint i j r k) ^ 2 := by
    refine Finset.sum_congr rfl fun r _ => ?_
    unfold loss_res_contrib
    rw [Finset.mul_sum]
    exact Finset.sum_congr rfl fun k _ => by ring
  unfold trans_loss trans_loss_spec
  rw [hs]

/-- C5: on every residue whose effective mask entry is 0, the costate
returned by the adjoint solver is exactly zero in every coordinate
(regardless of the drift field and of its gradient), and the residue's
summand in the masked loss sums of lines 193-196 and 209-212 is exactly
zero for every term tensor. -/
theorem masked_residue_zero (drift gradSum : T B R → (Fin B → ℚ) → T B R)
    (x_t : T B R) (t : Fin B → ℚ) (mask : M B R) (b : Fin B) (r : Fin R)
    (hm : mask b r = 0) :
    (∀ a, solve_adjoint_state drift gradSum x_t t mask = some a → ∀ k, a b r k = 0)
    ∧ (∀ term : T B R, loss_res_contrib term mask b r = 0) := by
  constructor
  · have hsweep : ∀ (l : List ℚ) (s : T B R × T B R), (∀ k, s.1 b r k = 0) →
        ∀ s', adjoint_sweep drift gradSum mask l s = some s' → ∀ k, s'.1 b r k = 0 := by
      intro l
      induction l with
      | nil =>
        intro s hs s' h k
        simp only [adjoint_sweep, Option.some.injEq] at h
        rw [← h]
        exact hs k
      | cons tc rest ih =>
        intro s hs s' h k
        simp only [adjoint_sweep] at h
        rcases Option.bind_eq_some.mp h with ⟨out, hout, h2⟩
        rcases Option.bind_eq_some.mp h2 with ⟨a1, ha1, h3⟩
        exact ih _ (by intro k'; simp [hm]) s' h3 k
    intro a ha k
    rcases Option.map_eq_some'.mp ha with ⟨s', hs', rfl⟩
    exact hsweep timesteps.dropLast _ (by intro k'; simp [hm]) s' hs' k
  · intro term
    simp [loss_res_contrib, hm]

/-- Witness for masked_residue_zero: one example, two residues, the second
residue masked out, with a concrete nonzero drift on that residue. -/
theorem masked_residue_zero_witness :
    (fun (_ : Fin 1) (r : Fin 2) => if r = 1 then (0 : ℚ) else 1) 0 1 = 0 ∧
    ((∀ a, solve_adjoint_state (B := 1) (R := 2)
        (fun _ _ => fun _ _ _ => 7) (fun _ _ => fun _ _ _ => 0)
        (fun _ _ _ => 0) (fun _ => 1 / 2)
        (fun _ r => if r = 1 then 0 else 1) = some a → ∀ k, a 0 1 k = 0)
      ∧ (∀ term : T 1 2, loss_res_contrib term
          (fun _ r => if r = 1 then 0 else 1) 0 1 = 0)) :=
  ⟨by simp, masked_residue_zero _ _ _ _ _ 0 1 (by simp)⟩

/-- The loss record returned by model_step on lines 236-244, with one exact
rational value per example for each returned key. -/
structure LossRecord (B : ℕ) where
  trans_loss : Fin B → ℚ
  auxiliary_loss : Fin B → ℚ
  rots_vf_loss : Fin B → ℚ
  se3_vf_loss : Fin B → ℚ
  diversity_reward : Fin B → ℚ
  validity_reward : Fin B → ℚ
  total_reward : Fin B → ℚ

/-- Lines 140-144 of model_step: the effective loss mask is
res_mask * diffuse_mask, and ValueError('Empty batch encountered') is raised
when any example's mask sums to less than one.  The remainder of the
function runs only otherwise and is abstracted as the continuation rest, so
that the rejection can be established for every possible continuation, that
is, before any further computation. -/
def model_step_guard (res_mask diffuse_mask : M B R)
    (rest : M B R → Except String (LossRecord B)) : Except String (LossRecord B) :=
  let loss_mask : M B R := fun b r => res_mask b r * diffuse_mask b r
  if ∃ b, (∑ r, loss_mask b r) < 1 then Except.error "Empty batch encountered"
  else rest loss_mask

/-- C6: whenever some example's effective mask (res_mask * diffuse_mask)
sums to less than one valid residue, model_step raises
ValueError('Empty batch encountered') before any further computation: the
error is returned for every possible continuation of the function body, so
no partial loss record is ever produced. -/
theorem empty_batch_rejected (res_mask diffuse_mask : M B R)
    (rest : M B R → Except String (LossRecord B))
    (h : ∃ b, (∑ r, res_mask b r * diffuse_mask b r) < 1) :
    model_step_guard res_mask diffuse_mask rest
      = Except.error "Empty batch encountered" := by
  simp only [model_step_guard]
  rw [if_pos h]

/-- Witness for empty_batch_rejected: a single example with one residue and
an all-zero residue mask. -/
theorem empty_batch_rejected_witness :
    (∃ b : Fin 1, (∑ r : Fin 1, (0 : ℚ) * 1) < 1) ∧
    model_step_guard (B := 1) (R := 1) (fun _ _ => 0) (fun _ _ => 1)
      (fun _ => Except.error "unreachable")
      = Except.error "Empty batch encountered" :=
  ⟨⟨0, by simp⟩, empty_batch_rejected _ _ _ ⟨0, by simp⟩⟩

/-- The residue-r summand of the masked square sum of lines 223-226: the
squared per-atom coordinate differences between ground-truth and predicted
backbone atoms on residue r, times the loss mask there. -/
def aux_res_contrib (gt_atoms pred_atoms : A37 B R) (mask : M B R)
    (b : Fin B) (r : Fin R) : ℚ :=
  ∑ a : Fin 3, ∑ k : Fin 3, (gt_atoms b r a k - pred_atoms b r a k) ^ 2 * mask b r

/-- Lines 222-226: bb_atom_loss, the masked squared distance between
ground-truth and predicted backbone atoms summed over atoms, coordinates and
residues, divided by loss_denom = (sum of the mask) * 3. -/
def bb_atom_loss (gt_atoms pred_atoms : A37 B R) (mask : M B R) : Fin B → ℚ :=
  fun b => (∑ r, aux_res_contrib gt_atoms pred_atoms mask b r)
    / ((∑ r, mask b r) * 3)

/-- Lines 215-229: the auxiliary loss is 0 unless
training_cfg.aux_loss_weight > 0 and r3_t[0, 0] > 0.5 — the code gates the
whole batch on the translation time of example 0 — in which case it is
bb_atom_loss * aux_loss_weight * reward, clamped to at most 5; reward is the
per-example scalar factor of line 228. -/
def auxiliary_loss [NeZero B] (aux_w : ℚ) (r3_t : Fin B → ℚ)
    (gt_atoms pred_atoms : A37 B R) (mask : M B R) (reward : Fin B → ℚ) : Fin B → ℚ :=
  if 0 < aux_w ∧ 1 / 2 < r3_t 0 then
    fun b => min (bb_atom_loss gt_atoms pred_atoms mask b * aux_w * reward b) 5
  else fun _ => 0

/-- The auxiliary loss as the claim words it, reading the gate on the
translation time per example rather than from example 0. -/
def auxiliary_loss_claimed (aux_w : ℚ) (r3_t : Fin B → ℚ)
    (gt_atoms pred_atoms : A37 B R) (mask : M B R) (reward : Fin B → ℚ) : Fin B → ℚ :=
  fun b => if 0 < aux_w ∧ 1 / 2 < r3_t b then
    min (bb_atom_loss gt_atoms pred_atoms mask b * aux_w * reward b) 5
  else 0

/-- C8 (counterexample): with aux_loss_weight = 1, two examples with one
residue each, translation times 3/5 and 3/10, unit mask and reward, and a
unit coordinate error on every atom coordinate, the code assigns example 1
the auxiliary loss 3 even though example 1's own translation time is below
0.5, because the gate of line 216 only reads r3_t[0, 0]; the per-example
reading of the claim gives 0 there. -/
theorem aux_loss_time_counterexample :
    auxiliary_loss (B := 2) (R := 1) 1 (fun b => if b = 0 then 3 / 5 else 3 / 10)
      (fun _ _ _ _ => 1) (fun _ _ _ _ => 0)
      (fun _ _ => 1) (fun _ => 1) 1
    ≠ auxiliary_loss_claimed (B := 2) (R := 1) 1 (fun b => if b = 0 then 3 / 5 else 3 / 10)
      (fun _ _ _ _ => 1) (fun _ _ _ _ => 0)
      (fun _ _ => 1) (fun _ => 1) 1 := by
  norm_num [auxiliary_loss, auxiliary_loss_claimed, bb_atom_loss, aux_res_contrib,
    Fin.sum_univ_three, min_def]

/-- The auxiliary loss as the amended claim words it: exactly when the
configured weight is positive and the first example's translation time
exceeds one half, every example receives the mask-weighted per-atom squared
coordinate error, normalized by three times the count of valid residues,
times the configured weight and the example's reward, clamped to a maximum
of 5; otherwise every example receives exactly 0. -/
def auxiliary_loss_spec [NeZero B] (aux_w : ℚ) (r3_t : Fin B → ℚ)
    (gt_atoms pred_atoms : A37 B R) (mask : M B R) (reward : Fin B → ℚ) : Fin B → ℚ :=
  fun b => if 0 < aux_w ∧ 1 / 2 < r3_t 0 then
    min ((∑ r, mask b r * ∑ a : Fin 3, ∑ k : Fin 3,
        (gt_atoms b r a k - pred_atoms b r a k) ^ 2)
      / (3 * ∑ r, mask b r) * aux_w * reward b) 5
  else 0

/-- C8 (amended): the auxiliary loss of lines 215-229 equals the masked,
reward-weighted per-atom coordinate regression loss between ground-truth and
predicted backbone atom positions, clamped to a maximum of 5, exactly when
the configured auxiliary-loss weight is positive and the first example's
translation time (r3_t[0, 0], which gates the whole batch) exceeds 0.5;
otherwise it is exactly 0 for every example. -/
theorem auxiliary_loss_eq_spec [NeZero B] (aux_w : ℚ) (r3_t : Fin B → ℚ)
    (gt_atoms pred_atoms : A37 B R) (mask : M B R) (reward : Fin B → ℚ) :
    auxiliary_loss aux_w r3_t gt_atoms pred_atoms mask reward
      = auxiliary_loss_spec aux_w r3_t gt_atoms pred_atoms mask reward := by
  funext b
  have hb : bb_atom_loss gt_atoms pred_atoms mask b
      = (∑ r, mask b r * ∑ a : Fin 3, ∑ k : Fin 3,
          (gt_atoms b r a k - pred_atoms b r a k) ^ 2)
        / (3 * ∑ r, mask b r) := by
    unfold bb_atom_loss aux_res_contrib
    have h3 : ((∑ r, mask b r) * 3 : ℚ) = 3 * ∑ r, mask b r := mul_comm _ _
    rw [h3]
    congr 1
    refine Finset.sum_congr rfl fun r _ => ?_
    rw [Finset.mul_sum]
    refine Finset.sum_congr rfl fun a _ => ?_
    rw [Finset.mul_sum]
    exact Finset.sum_congr rfl fun k _ => by ring
  by_cases h : 0 < aux_w ∧ 1 / 2 < r3_t 0
  · simp only [auxiliary_loss, auxiliary_loss_spec, if_pos h]
    rw [hb]
  · simp only [auxiliary_loss, auxiliary_loss_spec, if_neg h]

/-- Witness for auxiliary_loss_eq_spec: one example, one residue, weight 1,
translation time 3/4, a unit coordinate error, unit mask and reward. -/
theorem auxiliary_loss_eq_spec_witness :
    auxiliary_loss (B := 1) (R := 1) 1 (fun _ => 3 / 4)
      (fun _ _ a k => if a = 0 ∧ k = 0 then 1 else 0) (fun _ _ _ _ => 0)
      (fun _ _ => 1) (fun _ => 1)
    = auxiliary_loss_spec (B := 1) (R := 1) 1 (fun _ => 3 / 4)
      (fun _ _ a k => if a = 0 ∧ k = 0 then 1 else 0) (fun _ _ _ _ => 0)
      (fun _ _ => 1) (fun _ => 1) :=
  auxiliary_loss_eq_spec 1 _ _ _ _ _

/-- Atom tensors over the reals, of shape (batch, residues, 3 backbone
atoms, 3 coordinates): the [:, :, :3] slice of the to_atom37 output on line
153, over which the reward of lines 155-167 is computed. -/
abbrev AtomsR (B R : ℕ) := Fin B → Fin R → Fin 3 → Fin 3 → ℝ

/-- Line 155: bond_lengths = torch.norm(p[:, :, 1:] - p[:, :, :-1], dim=-1):
the Euclidean length of the difference between consecutive backbone atoms,
one value per example, residue and bond (2 bonds per residue). -/
noncomputable def bond_lengths (p : AtomsR B R) (b : Fin B) (r : Fin R) (i : Fin 2) : ℝ :=
  Real.sqrt (∑ k, (p b r i.succ k - p b r i.castSucc k) ^ 2)

/-- Lines 156-157: valid_bonds marks the bond lengths lying strictly inside
the open interval (1, 2), and validity_reward is
valid_bonds.float().mean(dim=-1), which averages over the last axis only,
that is, over the 2 bonds within each residue: the result has shape (B, R),
one value per example and residue. -/
noncomputable def validity_reward (p : AtomsR B R) : Fin B → Fin R → ℝ :=
  fun b r => (∑ i : Fin 2,
    if 1 < bond_lengths p b r i ∧ bond_lengths p b r i < 2 then (1 : ℝ) else 0) / 2

/-- Line 160: flat_coords = pred_bb_atoms.reshape(batch_size, -1, 3),
flattening residues and atoms row-major into R * 3 points per example. -/
def flat_coords (p : AtomsR B R) : Fin B → Fin (R * 3) → Fin 3 → ℝ :=
  fun b n k => p b ⟨n.val / 3, by have h := n.isLt; omega⟩ ⟨n.val % 3, by omega⟩ k

/-- Lines 162-164: the mean of the full pairwise Euclidean distance matrix
torch.cdist(flat_coords, flat_coords) over both point axes (the zero
diagonal included): one scalar per example. -/
noncomputable def diversity_reward (p : AtomsR B R) : Fin B → ℝ :=
  fun b => (∑ i : Fin (R * 3), ∑ j : Fin (R * 3),
    Real.sqrt (∑ k, (flat_coords p b i k - flat_coords p b j k) ^ 2))
    / (((R * 3 : ℕ) : ℝ) * ((R * 3 : ℕ) : ℝ))

/-- Line 167: reward = 2.0 * diversity_reward + 1.0 * validity_reward.
diversity_reward has shape (B,) and validity_reward has shape (B, R); torch
right-aligns the two shapes, padding the first to (1, B), which must then
broadcast against (B, R): this is accepted only when B = R (sizes equal),
B = 1, or R = 1, and in each case the entry at position (b, j) pairs the
diversity value whose index lands in the trailing slot with the validity of
example b — for B = R the batch axis of the diversity term is consumed by
the residue slot.  On any other shapes line 167 raises a size-mismatch
error, modelled as none. -/
noncomputable def reward_combine (d : Fin B → ℝ) (v : Fin B → Fin R → ℝ) :
    Option ((n : ℕ) × (Fin B → Fin n → ℝ)) :=
  if h : B = R then some ⟨R, fun b j => 2 * d (Fin.cast h.symm j) + 1 * v b j⟩
  else if hb : B = 1 then some ⟨R, fun b j => 2 * d (Fin.cast hb.symm 0) + 1 * v b j⟩
  else if hr : R = 1 then some ⟨B, fun b j => 2 * d j + 1 * v b (Fin.cast hr.symm 0)⟩
  else none

/-- C3: the claim says the computed reward is one non-negative scalar per
example, with the validity term the mean across residues of the bond
indicator; in the code validity_reward is a per-example, per-residue tensor
(its mean runs only over each residue's two bonds), so the addition on line
167 broadcasts a shape-(B,) tensor against a shape-(B, R) tensor.  For 2
examples and 3 residues (any coordinates whatsoever) this raises a
size-mismatch error — the embedded combination returns none — so no
per-example scalar reward is ever produced. -/
theorem reward_not_per_example (p : AtomsR 2 3) :
    reward_combine (diversity_reward p) (validity_reward p) = none := rfl

/-- Line 176: alpha_t = r3_t, as a function of the per-example translation
time. -/
def alpha_t (t : ℝ) : ℝ := t

/-- Line 177: beta_t = 1 - r3_t. -/
noncomputable def beta_t (t : ℝ) : ℝ := 1 - t

/-- Line 178: alpha_dot = 1. -/
def alpha_dot : ℝ := 1

/-- Line 179: beta_dot = -1. -/
noncomputable def beta_dot : ℝ := -1

/-- Line 180: eta_t = beta_t * (alpha_dot / alpha_t * beta_t - beta_dot). -/
noncomputable def eta_t (t : ℝ) : ℝ :=
  beta_t t * (alpha_dot / alpha_t t * beta_t t - beta_dot)

/-- Line 181: sigma_t = sqrt(2 * eta_t). -/
noncomputable def sigma_t (t : ℝ) : ℝ := Real.sqrt (2 * eta_t t)

/-- C4 (counterexample): the claim says the coefficient of line 180 reduces
algebraically to (1 - t) * t; at t = 1/2 the code's formula gives
eta_t = (1/2) * (2 * (1/2) + 1) = 1, while (1 - t) * t = 1/4. -/
theorem eta_claim_counterexample :
    eta_t (1 / 2) ≠ (1 - 1 / 2) * (1 / 2 : ℝ) := by
  norm_num [eta_t, alpha_t, beta_t, alpha_dot, beta_dot]

/-- C4 (amended): for the linear schedule alpha = t, beta = 1 - t,
alpha_dot = 1, beta_dot = -1, the coefficient of line 180 reduces
algebraically to eta_t = (1 - t) / t (not (1 - t) * t) for every t in the
open interval (0, 1); there 2 * eta_t is non-negative, so
sigma_t = sqrt(2 * eta_t) is a real, non-negative number whose square
recovers 2 * eta_t. -/
theorem eta_sigma_schedule (t : ℝ) (h0 : 0 < t) (h1 : t < 1) :
    eta_t t = (1 - t) / t ∧ 0 ≤ 2 * eta_t t ∧ 0 ≤ sigma_t t ∧
      sigma_t t ^ 2 = 2 * eta_t t := by
  have he : eta_t t = (1 - t) / t := by
    unfold eta_t alpha_t beta_t alpha_dot beta_dot
    field_simp
  have hnn : 0 ≤ 2 * eta_t t := by
    rw [he]
    have h2 : 0 ≤ (1 - t) / t := div_nonneg (by linarith) h0.le
    linarith
  exact ⟨he, hnn, Real.sqrt_nonneg _, Real.sq_sqrt hnn⟩

/-- Witness for eta_sigma_schedule at t = 1/2. -/
theorem eta_sigma_schedule_witness :
    (0 : ℝ) < 1 / 2 ∧ (1 / 2 : ℝ) < 1 ∧
    (eta_t (1 / 2) = (1 - 1 / 2) / (1 / 2) ∧ 0 ≤ 2 * eta_t (1 / 2) ∧
      0 ≤ sigma_t (1 / 2) ∧ sigma_t (1 / 2) ^ 2 = 2 * eta_t (1 / 2)) :=
  ⟨by norm_num, by norm_num, eta_sigma_schedule (1 / 2) (by norm_num) (by norm_num)⟩

/-- The uniform scale-up of a predicted structure considered by the claim:
every atom coordinate is doubled, which doubles every pairwise atom
distance. -/
noncomputable def scale2 (p : AtomsR B R) : AtomsR B R := fun b r a k => 2 * p b r a k

/-- C10 (counterexample): for the degenerate structure with every atom at
the origin, doubling the coordinates doubles all (zero) pairwise distances,
yet the diversity component does not increase: it stays 0. -/
theorem diversity_scale_counterexample :
    ¬ (diversity_reward (fun _ _ _ _ => 0 : AtomsR 1 1) 0
        < diversity_reward (scale2 (fun _ _ _ _ => 0 : AtomsR 1 1)) 0) := by
  have h0 : diversity_reward (fun _ _ _ _ => 0 : AtomsR 1 1) 0 = 0 := by
    norm_num [diversity_reward, flat_coords, Real.sqrt_zero]
  have h1 : diversity_reward (scale2 (fun _ _ _ _ => 0 : AtomsR 1 1)) 0 = 0 := by
    norm_num [diversity_reward, flat_coords, scale2, Real.sqrt_zero]
  rw [h0, h1]
  exact lt_irrefl 0

/-- C10 (amended): doubling all atom coordinates exactly doubles the
diversity component of the reward, and therefore strictly increases it
exactly when the structure has two atoms at distinct positions (positive
diversity); for a fully degenerate structure it stays 0. -/
theorem diversity_scale (p : AtomsR B R) (b : Fin B) :
    diversity_reward (scale2 p) b = 2 * diversity_reward p b ∧
    (0 < diversity_reward p b →
      diversity_reward p b < diversity_reward (scale2 p) b) := by
  have hflat : ∀ i j : Fin (R * 3),
      (∑ k, (flat_coords (scale2 p) b i k - flat_coords (scale2 p) b j k) ^ 2)
      = 4 * ∑ k, (flat_coords p b i k - flat_coords p b j k) ^ 2 := by
    intro i j
    simp only [flat_coords, scale2, Finset.mul_sum]
    refine Finset.sum_congr rfl fun k _ => ?_
    ring
  have hd : diversity_reward (scale2 p) b = 2 * diversity_reward p b := by
    unfold diversity_reward
    have hsum : (∑ i : Fin (R * 3), ∑ j : Fin (R * 3),
        Real.sqrt (∑ k, (flat_coords (scale2 p) b i k - flat_coords (scale2 p) b j k) ^ 2))
        = 2 * ∑ i : Fin (R * 3), ∑ j : Fin (R * 3),
          Real.sqrt (∑ k, (flat_coords p b i k - flat_coords p b j k) ^ 2) := by
      rw [Finset.mul_sum]
      refine Finset.sum_congr rfl fun i _ => ?_
      rw [Finset.mul_sum]
      refine Finset.sum_congr rfl fun j _ => ?_
      rw [hflat i j, show (4 : ℝ) = 2 ^ 2 by norm_num,
        Real.sqrt_mul (by positivity) _, Real.sqrt_sq (by norm_num)]
    rw [hsum, mul_div_assoc]
  refine ⟨hd, fun hpos => ?_⟩
  rw [hd]
  linarith

/-- A concrete structure with positive diversity: one example, one residue,
backbone atoms (1,0,0), (0,0,0) and (0,0,0). -/
noncomputable def pW : AtomsR 1 1 := fun _ _ a k => if a = 0 ∧ k = 0 then 1 else 0

theorem pW_diversity_pos : 0 < diversity_reward pW 0 := by
  have hterm : Real.sqrt (∑ k, (flat_coords pW 0 ⟨0, by omega⟩ k
      - flat_coords pW 0 ⟨1, by omega⟩ k) ^ 2) = 1 := by
    have hsum1 : (∑ k, (flat_coords pW 0 ⟨0, by omega⟩ k
        - flat_coords pW 0 ⟨1, by omega⟩ k) ^ 2) = 1 := by
      rw [Fin.sum_univ_three]
      norm_num [flat_coords, pW, Fin.ext_iff]
    rw [hsum1, Real.sqrt_one]
  unfold diversity_reward
  refine div_pos ?_ (by norm_num)
  refine Finset.sum_pos' (fun i _ => Finset.sum_nonneg fun j _ => Real.sqrt_nonneg _) ?_
  refine ⟨⟨0, by omega⟩, Finset.mem_univ _, ?_⟩
  refine Finset.sum_pos' (fun j _ => Real.sqrt_nonneg _) ?_
  refine ⟨⟨1, by omega⟩, Finset.mem_univ _, ?_⟩
  rw [hterm]
  norm_num

/-- Witness for diversity_scale at the structure pW, which has positive
diversity, discharging the positivity hypothesis of the strict increase. -/
theorem diversity_scale_witness :
    0 < diversity_reward pW 0 ∧
    (diversity_reward (scale2 pW) 0 = 2 * diversity_reward pW 0 ∧
      (0 < diversity_reward pW 0 →
        diversity_reward pW 0 < diversity_reward (scale2 pW) 0)) :=
  ⟨pW_diversity_pos, diversity_scale pW 0⟩

end FlowAM
